import Mathlib

/-!
Shallow embedding of the Finance-App repository (src/Finance-App.py).

The program is a single-file Streamlit application backed by a SQLite
database with three tables: users(username PRIMARY KEY),
expenses(id INTEGER PRIMARY KEY, username, date TEXT, category, amount REAL,
description) and budget(username, category, monthly_limit REAL,
PRIMARY KEY(username, category)).

Modelling choices, each tied to the source:
- The database state is a record of three lists (row order is insertion
  order, as SQLite returns rows here).
- REAL amounts are modelled as exact rationals.
- Dates are the TEXT strings the code stores (add_expense stores whatever
  string it is given; the UI produces ISO strings via strftime with the
  year-month-day format). The dashboard converts with pd.to_datetime and
  compares strftime year-month keys; for the ISO strings the app writes,
  that year-month key is the 7-character prefix of the stored string, and
  grouping by dt.date is grouping by the stored date string.
- SQLite INTEGER PRIMARY KEY assigns, to an INSERT that supplies no id,
  one plus the largest id currently in the table (1 for an empty table);
  nextId models that.
- INSERT OR REPLACE (set_budget) deletes any row with the same primary
  key and appends the new row.
- pandas mean of an empty series is NaN, not an exception; dailyAvg
  therefore returns an Option, with none standing for NaN.
-/

namespace FinanceApp

structure Expense where
  id : Nat
  username : String
  date : String
  category : String
  amount : ℚ
  description : String
deriving DecidableEq

structure BudgetRow where
  username : String
  category : String
  monthly_limit : ℚ
deriving DecidableEq

structure DBState where
  users : List String
  expenses : List Expense
  budget : List BudgetRow
deriving DecidableEq

/-- init_db on a fresh database: three empty tables. -/
def init_db : DBState := ⟨[], [], []⟩

/-- login_user: INSERT OR IGNORE INTO users. -/
def login_user (s : DBState) (u : String) : DBState :=
  if u ∈ s.users then s else { s with users := s.users ++ [u] }

/-- The id SQLite assigns to the next row inserted into expenses:
one plus the largest stored id (ids are nonnegative; empty table gives 1). -/
def nextId (es : List Expense) : Nat :=
  (es.map (fun e => e.id)).foldr max 0 + 1

/-- add_expense: INSERT INTO expenses (username, date, category, amount,
description); the id column is filled in by SQLite. No validation occurs. -/
def add_expense (s : DBState) (u date cat : String) (amount : ℚ)
    (desc : String) : DBState :=
  { s with expenses := s.expenses ++ [⟨nextId s.expenses, u, date, cat, amount, desc⟩] }

/-- get_expenses: SELECT * FROM expenses WHERE username = ?. -/
def get_expenses (s : DBState) (u : String) : List Expense :=
  s.expenses.filter (fun e => e.username = u)

/-- delete_expense: DELETE FROM expenses WHERE id = ?. -/
def delete_expense (s : DBState) (i : Nat) : DBState :=
  { s with expenses := s.expenses.filter (fun e => e.id ≠ i) }

/-- set_budget: INSERT OR REPLACE INTO budget; the REPLACE removes any row
with the same (username, category) primary key, and the new row is inserted. -/
def set_budget (s : DBState) (u cat : String) (l : ℚ) : DBState :=
  { s with budget :=
      s.budget.filter (fun b => ¬(b.username = u ∧ b.category = cat)) ++ [⟨u, cat, l⟩] }

/-- get_budget: SELECT * FROM budget WHERE username = ?. -/
def get_budget (s : DBState) (u : String) : List BudgetRow :=
  s.budget.filter (fun b => b.username = u)

/-- The year-month key the dashboard compares: pd.to_datetime followed by
strftime with the year-month format; for the ISO date strings the app
writes this is the 7-character prefix of the stored date string. -/
def monthKey (d : String) : String := d.take 7

/-- Line 113: month_expenses, the expenses whose date falls in the month m. -/
def monthExpenses (es : List Expense) (m : String) : List Expense :=
  es.filter (fun e => monthKey e.date = m)

/-- Line 114: total, the sum of the amount column. -/
def totalSpent (es : List Expense) : ℚ :=
  (es.map (fun e => e.amount)).sum

/-- The distinct calendar dates occurring in a list of expenses, first
occurrences first (the groupby keys of line 115). -/
def distinctDates (es : List Expense) : List String :=
  (es.map (fun e => e.date)).dedup

/-- The summed amount of the expenses on one calendar date. -/
def daySum (es : List Expense) (d : String) : ℚ :=
  ((es.filter (fun e => e.date = d)).map (fun e => e.amount)).sum

/-- Line 115: daily_avg, the mean of the groupby-date sums of the amount
column. pandas gives NaN for the mean of an empty series; none models NaN. -/
def dailyAvg (es : List Expense) : Option ℚ :=
  if (distinctDates es).isEmpty then none
  else some (((distinctDates es).map (daySum es)).sum / ((distinctDates es).length : ℚ))

/-- The summed month spend in one category; a category absent from the
month gets 0, exactly what the left merge with fillna(0) of line 121 does. -/
def spentByCat (es : List Expense) (c : String) : ℚ :=
  ((es.filter (fun e => e.category = c)).map (fun e => e.amount)).sum

/-- The distinct categories occurring in a list of expenses
(the groupby keys of line 120). -/
def categories (es : List Expense) : List String :=
  (es.map (fun e => e.category)).dedup

/-- Line 120: spent_by_cat, the per-category sums of the month's expenses. -/
def spendByCategory (es : List Expense) : List (String × ℚ) :=
  (categories es).map (fun c => (c, spentByCat es c))

/-- The status tier the dashboard loop of lines 123-127 assigns. -/
inductive Tier
  | OK
  | WARNING
  | OVER
deriving DecidableEq

/-- Line 122: merged row status, the spend-to-limit ratio of one budget row
against the month's expenses. -/
def ratioFor (es : List Expense) (b : BudgetRow) : ℚ :=
  spentByCat es b.category / b.monthly_limit

/-- Lines 124-127: if the ratio exceeds 1 the row is over budget; otherwise
if it exceeds 8/10 it is almost at the limit; otherwise no alert is shown. -/
def tierOf (r : ℚ) : Tier :=
  if r > 1 then Tier.OVER else if r > 8/10 then Tier.WARNING else Tier.OK

/-- The tier the dashboard assigns to one budget row. -/
def budgetStatus (es : List Expense) (b : BudgetRow) : Tier :=
  tierOf (ratioFor es b)

/-- The write operations the app can perform against the store. -/
inductive Op
  | login (u : String)
  | add (u date cat : String) (amount : ℚ) (desc : String)
  | delete (i : Nat)
  | setBudget (u cat : String) (l : ℚ)

/-- One operation applied to a database state. -/
def applyOp (s : DBState) : Op → DBState
  | Op.login u => login_user s u
  | Op.add u d c a desc => add_expense s u d c a desc
  | Op.delete i => delete_expense s i
  | Op.setBudget u c l => set_budget s u c l

/-- Running a sequence of operations from the fresh database. -/
def run (ops : List Op) : DBState := ops.foldl applyOp init_db

/-- The limit stored for one (username, category) pair, if any. -/
def findLimit (s : DBState) (u cat : String) : Option ℚ :=
  (s.budget.find? (fun b => b.username = u ∧ b.category = cat)).map
    (fun b => b.monthly_limit)

/-- The most recent limit a sequence of operations sets for the pair
(u, cat), starting from a current value. -/
def lastLimit (u cat : String) (cur : Option ℚ) : List Op → Option ℚ
  | [] => cur
  | Op.setBudget v c l :: ops =>
      lastLimit u cat (if v = u ∧ c = cat then some l else cur) ops
  | Op.login _ :: ops => lastLimit u cat cur ops
  | Op.add _ _ _ _ _ :: ops => lastLimit u cat cur ops
  | Op.delete _ :: ops => lastLimit u cat cur ops

/-!
## IEEE binary64 model of the summations the code actually runs

The amount column is SQLite REAL, an IEEE 754 binary64 double, and the sums
of lines 114 and 120 are computed by pandas in float64: each addition is the
exact sum rounded to the nearest double (53-bit significand, ties to even).
Every finite double is a dyadic rational m * 2^e, so doubles are modelled
exactly as such pairs; addition aligns exponents exactly and then rounds the
mantissa back to at most 53 bits. Overflow and subnormals are far outside
the magnitudes considered here and are not modelled. Accumulation order is
the row order in which numpy and the pandas groupby accumulate a short
column: left to right from a zero accumulator.
-/

/-- A dyadic rational m * 2^e: the exact value of a finite binary64 double. -/
structure Dy where
  m : ℤ
  e : ℤ
deriving DecidableEq

/-- Fuel-bounded floor of the base-2 logarithm (fuel 1200 covers the whole
binary64 exponent range). -/
def log2Nat : Nat → Nat → Nat
  | 0, _ => 0
  | f + 1, n => if n ≤ 1 then 0 else log2Nat f (n / 2) + 1

/-- Exact addition of dyadic rationals: align to the smaller exponent. -/
def dyAddExact (a b : Dy) : Dy :=
  if a.e ≤ b.e then ⟨a.m + b.m * ((2 ^ (b.e - a.e).toNat : Nat) : ℤ), a.e⟩
  else ⟨a.m * ((2 ^ (a.e - b.e).toNat : Nat) : ℤ) + b.m, b.e⟩

/-- Round a dyadic rational to a binary64 value: if the mantissa needs more
than 53 bits, shift it down and round to nearest, ties to even. -/
def roundD (d : Dy) : Dy :=
  let n := d.m.natAbs
  let lg := log2Nat 1200 n
  if lg ≤ 52 then d
  else
    let shift := lg - 52
    let p : Nat := 2 ^ shift
    let q := n / p
    let r := n % p
    let q2 := if 2 * r < p then q else if p < 2 * r then q + 1
      else if q % 2 = 0 then q else q + 1
    ⟨if d.m < 0 then -(q2 : ℤ) else (q2 : ℤ), d.e + (shift : ℤ)⟩

/-- One binary64 addition: exact sum, then rounding. -/
def dyAdd (a b : Dy) : Dy := roundD (dyAddExact a b)

/-- The exact rational value a dyadic pair denotes. -/
def dyVal (d : Dy) : ℚ :=
  if 0 ≤ d.e then (d.m : ℚ) * ((2 ^ d.e.toNat : Nat) : ℚ)
  else (d.m : ℚ) / ((2 ^ (-d.e).toNat : Nat) : ℚ)

/-- The dyadic value of a stored amount; exact whenever the denominator is
the power of two it is for any REAL-stored (double) amount. -/
def dyOfRat (q : ℚ) : Dy := ⟨q.num, -(log2Nat 1200 q.den : ℤ)⟩

/-- Left-to-right binary64 accumulation from a zero accumulator — the order
numpy sums a short column. -/
def f64sum (l : List Dy) : Dy := l.foldl dyAdd ⟨0, 0⟩

/-- Line 114 in the arithmetic the code actually performs: the float64 sum
of the amount column. -/
def totalSpentF64 (es : List Expense) : Dy :=
  f64sum (es.map (fun e => dyOfRat e.amount))

/-- Line 120 in float64: the per-category group sums, in groupby row order. -/
def spendByCategoryF64 (es : List Expense) : List Dy :=
  (categories es).map
    (fun c => f64sum ((es.filter (fun e => e.category = c)).map
      (fun e => dyOfRat e.amount)))

/-- The float64 sum of the per-category float64 sums — the left side of the
claimed identity, as the code would compute it. -/
def sumSpendByCategoryF64 (es : List Expense) : Dy :=
  f64sum (spendByCategoryF64 es)

/-! ## Helper lemmas about filters, sums and lookups -/

theorem sum_map_filter_split {α : Type} (p : α → Bool) (f : α → ℚ) (l : List α) :
    ((l.filter p).map f).sum + ((l.filter (fun a => !p a)).map f).sum
      = (l.map f).sum := by
  induction l with
  | nil => simp
  | cons a t ih =>
    cases h : p a <;> simp [List.filter_cons, h] <;> linarith [ih]

theorem filter_filter_of_imp {α : Type} (p q : α → Bool) (l : List α)
    (h : ∀ a, p a = true → q a = true) :
    (l.filter q).filter p = l.filter p := by
  rw [List.filter_filter]
  refine List.filter_congr ?_
  intro a _
  cases hp : p a
  · simp
  · simp [h a hp]

theorem find_filter_of_imp {α : Type} (p q : α → Bool) (l : List α)
    (h : ∀ a, p a = true → q a = true) :
    (l.filter q).find? p = l.find? p := by
  induction l with
  | nil => rfl
  | cons a t ih =>
    cases hq : q a
    · have hp : p a = false := by
        cases hp : p a
        · rfl
        · exact absurd (h a hp) (by simp [hq])
      simp [List.filter_cons, hq, List.find?_cons, hp, ih]
    · cases hp : p a <;> simp [List.filter_cons, hq, List.find?_cons, hp, ih]

theorem sum_grouped {κ α : Type} [DecidableEq κ] (key : α → κ) (f : α → ℚ) :
    ∀ ks : List κ, ks.Nodup → ∀ l : List α, (∀ a ∈ l, key a ∈ ks) →
      (ks.map (fun k => ((l.filter (fun a => key a = k)).map f).sum)).sum
        = (l.map f).sum := by
  intro ks
  induction ks with
  | nil =>
    intro _ l hl
    cases l with
    | nil => simp
    | cons a t => exact absurd (hl a (List.mem_cons_self a t)) (List.not_mem_nil _)
  | cons k ks ih =>
    intro hnd l hl
    have hk : k ∉ ks := (List.nodup_cons.mp hnd).1
    have hnd2 : ks.Nodup := (List.nodup_cons.mp hnd).2
    have htail : ∀ k2 ∈ ks,
        ((l.filter (fun a => key a = k2)).map f).sum
          = (((l.filter (fun a => !(decide (key a = k)))).filter
              (fun a => key a = k2)).map f).sum := by
      intro k2 hk2
      have hne : k2 ≠ k := fun he => hk (he ▸ hk2)
      rw [filter_filter_of_imp]
      intro a ha
      simp only [decide_eq_true_eq] at ha
      simp [ha, hne]
    have hl2 : ∀ a ∈ l.filter (fun a => !(decide (key a = k))), key a ∈ ks := by
      intro a ha
      rw [List.mem_filter] at ha
      rcases List.mem_cons.mp (hl a ha.1) with h1 | h1
      · exfalso
        have := ha.2
        simp [h1] at this
      · exact h1
    rw [List.map_cons, List.sum_cons, List.map_congr_left htail,
      ih hnd2 (l.filter (fun a => !(decide (key a = k)))) hl2]
    exact sum_map_filter_split (fun a => decide (key a = k)) f l

/-- The per-day sums of line 115 add up to the total of line 114: summing the
groupby-date group sums gives the sum of the whole amount column. -/
theorem sum_daySums (es : List Expense) :
    ((distinctDates es).map (daySum es)).sum = totalSpent es := by
  have h := sum_grouped (fun e : Expense => e.date) (fun e : Expense => e.amount)
    (distinctDates es) (List.nodup_dedup _) es
    (fun a ha => List.mem_dedup.mpr (List.mem_map_of_mem _ ha))
  exact h

/-- Concrete expenses used below as test data. -/
def exJan : Expense := ⟨1, "guest", "2025-01-15", "Food", 10, "lunch"⟩

def exA : Expense := ⟨1, "guest", "2025-05-01", "Food", 100, "groceries"⟩

def exB : Expense := ⟨2, "guest", "2025-05-02", "Food", 50, "snacks"⟩

def exC : Expense := ⟨3, "guest", "2025-05-01", "Transport", 20, "bus"⟩

/-- C3: for a month with at least one expense, the mean of per-day sums the
code computes equals total_spent divided by the number of distinct calendar
dates present in the filtered set. -/
theorem daily_average_eq_total_div_distinct_days (es : List Expense) (m : String)
    (h : monthExpenses es m ≠ []) :
    dailyAvg (monthExpenses es m)
      = some (totalSpent (monthExpenses es m)
          / ((distinctDates (monthExpenses es m)).length : ℚ)) := by
  have hmap : (monthExpenses es m).map (fun e => e.date) ≠ [] := by
    intro hc
    exact h (List.map_eq_nil_iff.mp hc)
  have hne : ¬(distinctDates (monthExpenses es m)).isEmpty = true := by
    rw [List.isEmpty_iff]
    unfold distinctDates
    intro hc
    exact hmap ((List.dedup_eq_nil _).mp hc)
  unfold dailyAvg
  rw [if_neg hne, sum_daySums]

/-- Witness for C3 at the May scenario data. -/
theorem daily_average_witness :
    dailyAvg (monthExpenses [exA, exB, exC] "2025-05")
      = some (totalSpent (monthExpenses [exA, exB, exC] "2025-05")
          / ((distinctDates (monthExpenses [exA, exB, exC] "2025-05")).length : ℚ)) :=
  daily_average_eq_total_div_distinct_days [exA, exB, exC] "2025-05" (by decide)

/-- Under the exact (drift-free) accumulation the spec mandates, the
per-category sums of line 120 add up exactly to the total of line 114, for
every list of expenses. The code itself sums in float64, where this identity
fails; see float64_sum_mismatch below. -/
theorem spend_by_category_total (es : List Expense) :
    ((spendByCategory es).map (fun p => p.2)).sum = totalSpent es := by
  unfold spendByCategory
  rw [List.map_map]
  exact sum_grouped (fun e : Expense => e.category) (fun e : Expense => e.amount)
    (categories es) (List.nodup_dedup _) es
    (fun a ha => List.mem_dedup.mpr (List.mem_map_of_mem _ ha))

/-- C2, counterexample to the NoDataError part: with one January expense and
February requested, the filtered set is empty, total is 0, and the code's
daily average is the NaN marker (none): pandas returns NaN for the mean of an
empty series, and lines 115-117 raise nothing — no NoDataError exists
anywhere in the program, the dashboard simply renders the NaN. -/
theorem dailyAvg_yields_nan_counterexample :
    monthExpenses [exJan] "2025-02" = [] ∧
    totalSpent (monthExpenses [exJan] "2025-02") = 0 ∧
    dailyAvg (monthExpenses [exJan] "2025-02") = none := by
  refine ⟨by decide, by decide, by decide⟩

/-- C2 as amended: an empty month filter gives total_spent = 0 and a NaN
daily average (none), not a raised error. -/
theorem empty_month_total_zero_daily_avg_nan (es : List Expense) (m : String)
    (h : monthExpenses es m = []) :
    totalSpent (monthExpenses es m) = 0 ∧ dailyAvg (monthExpenses es m) = none := by
  rw [h]
  constructor
  · rfl
  · rfl

/-- Witness for the amended C2. -/
theorem empty_month_witness :
    totalSpent (monthExpenses [exJan] "2025-02") = 0 ∧
    dailyAvg (monthExpenses [exJan] "2025-02") = none :=
  empty_month_total_zero_daily_avg_nan [exJan] "2025-02" (by decide)

/-- C1: the dashboard tier of a budget row with positive limit is OVER
exactly when the spend-to-limit ratio exceeds 1, WARNING exactly when the
ratio is above 8/10 and at most 1, and OK exactly when the ratio is at most
8/10; in particular a ratio of exactly 1 gives WARNING. -/
theorem budget_tier_classification (es : List Expense) (b : BudgetRow)
    (_hpos : 0 < b.monthly_limit) :
    (budgetStatus es b = Tier.OVER ↔ 1 < ratioFor es b) ∧
    (budgetStatus es b = Tier.WARNING ↔ (8/10 < ratioFor es b ∧ ratioFor es b ≤ 1)) ∧
    (budgetStatus es b = Tier.OK ↔ ratioFor es b ≤ 8/10) ∧
    (ratioFor es b = 1 → budgetStatus es b = Tier.WARNING) := by
  unfold budgetStatus tierOf
  split_ifs with h1 h2 <;>
    refine ⟨?_, ?_, ?_, ?_⟩ <;>
      simp_all <;>
        linarith

/-- Concrete budget row used as test data. -/
def budFood : BudgetRow := ⟨"guest", "Food", 100⟩

/-- Witness for C1: a 100-spend against a 100 limit has ratio exactly 1 and
the dashboard tier is WARNING. -/
theorem budget_tier_witness :
    budgetStatus [exA] budFood = Tier.WARNING :=
  (budget_tier_classification [exA] budFood (by norm_num [budFood])).2.2.2
    (by norm_num [ratioFor, spentByCat, exA, budFood])

/-- The INSERT OR REPLACE of set_budget makes the lookup of the written
(username, category) pair return the new limit. -/
theorem findLimit_set_budget_self (s : DBState) (u cat : String) (l : ℚ) :
    findLimit (set_budget s u cat l) u cat = some l := by
  unfold findLimit set_budget
  rw [List.find?_append]
  have h : (s.budget.filter (fun b => ¬(b.username = u ∧ b.category = cat))).find?
      (fun b => b.username = u ∧ b.category = cat) = none := by
    rw [List.find?_eq_none]
    intro b hb
    rw [List.mem_filter] at hb
    have h2 := hb.2
    simp only [decide_eq_true_eq] at h2 ⊢
    exact h2
  rw [h]
  simp [List.find?_cons]

/-- set_budget leaves the lookup of every other (username, category) pair
unchanged. -/
theorem findLimit_set_budget_other (s : DBState) (u cat v c2 : String) (l : ℚ)
    (h : ¬(u = v ∧ cat = c2)) :
    findLimit (set_budget s u cat l) v c2 = findLimit s v c2 := by
  unfold findLimit set_budget
  rw [List.find?_append]
  have hsing : List.find? (fun b => b.username = v ∧ b.category = c2)
      [(⟨u, cat, l⟩ : BudgetRow)] = none := by
    rw [List.find?_eq_none]
    intro b hb
    simp only [List.mem_singleton] at hb
    subst hb
    simp only [decide_eq_true_eq]
    exact h
  rw [hsing, Option.or_none, find_filter_of_imp]
  intro b hb
  simp only [decide_eq_true_eq] at hb ⊢
  rintro ⟨h1, h2⟩
  exact h ⟨h1.symm.trans hb.1, h2.symm.trans hb.2⟩

/-- login_user changes no budget row. -/
theorem findLimit_login (s : DBState) (v u cat : String) :
    findLimit (login_user s v) u cat = findLimit s u cat := by
  unfold login_user
  split <;> rfl

/-- Failing-input expenses for the float64 summation: one huge amount and
two unit amounts, every one of them exactly representable in binary64. -/
def fiBig : Expense := ⟨1, "guest", "2025-05-01", "Other", 10000000000000000, "flat"⟩

def fiOne : Expense := ⟨2, "guest", "2025-05-02", "Food", 1, "candy"⟩

def fiTwo : Expense := ⟨3, "guest", "2025-05-03", "Food", 1, "candy"⟩

/-- C4, the code evaluated at the failing input, in the binary64 arithmetic
it actually performs: for the May expenses 10^16 (Other), 1 (Food), 1 (Food),
line 114 computes (10^16 + 1) + 1, and each addition rounds back to 10^16
(the exact sum is a tie rounded to the even mantissa), so total_spent is
5000000000000000 * 2^1 = 10^16; the per-category sums are exact (10^16 and
2), and their float64 sum is 5000000000000001 * 2^1 = 10^16 + 2. Hence
sum(spend_by_category.values()) differs from total_spent: the exactness the
claim asserts fails in the code's float64 arithmetic, because the code never
performs the drift-free accumulation the claim and spec section 4.2 mandate. -/
theorem float64_sum_mismatch :
    totalSpentF64 (monthExpenses [fiBig, fiOne, fiTwo] "2025-05")
        = ⟨5000000000000000, 1⟩ ∧
    sumSpendByCategoryF64 (monthExpenses [fiBig, fiOne, fiTwo] "2025-05")
        = ⟨5000000000000001, 1⟩ ∧
    dyVal (totalSpentF64 (monthExpenses [fiBig, fiOne, fiTwo] "2025-05"))
        = 10000000000000000 ∧
    dyVal (sumSpendByCategoryF64 (monthExpenses [fiBig, fiOne, fiTwo] "2025-05"))
        = 10000000000000002 ∧
    dyVal (totalSpentF64 (monthExpenses [fiBig, fiOne, fiTwo] "2025-05"))
      ≠ dyVal (sumSpendByCategoryF64 (monthExpenses [fiBig, fiOne, fiTwo] "2025-05")) := by
  have h1 : totalSpentF64 (monthExpenses [fiBig, fiOne, fiTwo] "2025-05")
      = ⟨5000000000000000, 1⟩ := by decide
  have h2 : sumSpendByCategoryF64 (monthExpenses [fiBig, fiOne, fiTwo] "2025-05")
      = ⟨5000000000000001, 1⟩ := by decide
  refine ⟨h1, h2, ?_, ?_, ?_⟩
  · rw [h1]
    norm_num [dyVal]
  · rw [h2]
    norm_num [dyVal]
  · rw [h1, h2]
    norm_num [dyVal]

/-- C5, counterexample: a negative amount passed to add_expense is stored,
and a zero monthly limit passed to set_budget is stored — neither INSERT is
preceded by any validation, and no ValidationError exists in the program. -/
theorem no_validation_counterexample :
    (⟨1, "guest", "2025-05-01", "Food", -5, "negative"⟩ : Expense)
      ∈ (add_expense init_db "guest" "2025-05-01" "Food" (-5) "negative").expenses ∧
    (⟨"guest", "Food", 0⟩ : BudgetRow)
      ∈ (set_budget init_db "guest" "Food" 0).budget := by
  refine ⟨by decide, by decide⟩

/-- C5 as amended: add_expense and set_budget accept every input unchecked —
the row is stored exactly as given (non-positive amounts and limits and
arbitrary date strings included) and all other state is left unchanged. -/
theorem add_and_set_accept_all_inputs (s : DBState) (u d c desc cat : String)
    (a l : ℚ) :
    (add_expense s u d c a desc).expenses
        = s.expenses ++ [⟨nextId s.expenses, u, d, c, a, desc⟩] ∧
    (add_expense s u d c a desc).users = s.users ∧
    (add_expense s u d c a desc).budget = s.budget ∧
    findLimit (set_budget s u cat l) u cat = some l ∧
    (set_budget s u cat l).users = s.users ∧
    (set_budget s u cat l).expenses = s.expenses :=
  ⟨rfl, rfl, rfl, findLimit_set_budget_self s u cat l, rfl, rfl⟩

/-- The budget lookup after a foldl of operations is the last limit those
operations set for the pair, starting from the prior lookup value. -/
theorem findLimit_foldl : ∀ (ops : List Op) (s : DBState) (u cat : String),
    findLimit (ops.foldl applyOp s) u cat = lastLimit u cat (findLimit s u cat) ops := by
  intro ops
  induction ops with
  | nil => intro s u cat; rfl
  | cons op ops ih =>
    intro s u cat
    rw [List.foldl_cons]
    cases op with
    | login v =>
      rw [ih, show findLimit (applyOp s (Op.login v)) u cat = findLimit s u cat from
        findLimit_login s v u cat]
      rfl
    | add v d c a desc => rw [ih]; rfl
    | delete i => rw [ih]; rfl
    | setBudget v c l =>
      rw [ih]
      show lastLimit u cat (findLimit (set_budget s v c l) u cat) ops
        = lastLimit u cat (if v = u ∧ c = cat then some l else findLimit s u cat) ops
      by_cases hvc : v = u ∧ c = cat
      · rw [if_pos hvc]
        rcases hvc with ⟨rfl, rfl⟩
        rw [findLimit_set_budget_self]
      · rw [if_neg hvc, findLimit_set_budget_other s v c u cat l hvc]

/-- The (username, category) primary-key column pairs of the budget table. -/
def budgetKeys (s : DBState) : List (String × String) :=
  s.budget.map (fun b => (b.username, b.category))

/-- Every single operation preserves distinctness of budget primary keys:
only set_budget writes the table, and its REPLACE removes the matching key
before the new row is inserted. -/
theorem budgetKeys_nodup_applyOp (s : DBState) (op : Op)
    (h : (budgetKeys s).Nodup) : (budgetKeys (applyOp s op)).Nodup := by
  cases op with
  | login v =>
    show (budgetKeys (login_user s v)).Nodup
    unfold login_user
    split
    · exact h
    · exact h
  | add v d c a desc => exact h
  | delete i => exact h
  | setBudget v c l =>
    show (budgetKeys (set_budget s v c l)).Nodup
    unfold budgetKeys set_budget
    rw [List.map_append, List.nodup_append]
    refine ⟨((List.filter_sublist _).map _).nodup h, by simp, ?_⟩
    intro x hx hx2
    simp only [List.map_cons, List.map_nil, List.mem_singleton] at hx2
    subst hx2
    rw [List.mem_map] at hx
    rcases hx with ⟨b, hb, hkey⟩
    rw [List.mem_filter] at hb
    have h2 := hb.2
    simp only [decide_eq_true_eq] at h2
    exact h2 ⟨congrArg Prod.fst hkey, congrArg Prod.snd hkey⟩

/-- Distinctness of budget primary keys holds after any foldl of operations
from a state that has it. -/
theorem budgetKeys_nodup_foldl : ∀ (ops : List Op) (s : DBState),
    (budgetKeys s).Nodup → (budgetKeys (ops.foldl applyOp s)).Nodup := by
  intro ops
  induction ops with
  | nil => exact fun s h => h
  | cons op ops ih =>
    intro s h
    rw [List.foldl_cons]
    exact ih _ (budgetKeys_nodup_applyOp s op h)

/-- C6: after any sequence of operations from the fresh database, the budget
table holds at most one row per (username, category) pair, and the limit the
lookup returns for a pair is exactly the one most recently set for that pair
(none if never set) — so a set_budget replaces the old value for its own pair
and leaves every other pair at its own most recent value. -/
theorem set_budget_upsert_last_write_wins (ops : List Op) (u cat : String) :
    (budgetKeys (run ops)).Nodup ∧
    findLimit (run ops) u cat = lastLimit u cat none ops := by
  constructor
  · exact budgetKeys_nodup_foldl ops init_db (by simp [budgetKeys, init_db])
  · exact findLimit_foldl ops init_db u cat

/-- Every stored id is at most the running maximum that nextId is built on. -/
theorem id_le_foldr_max (es : List Expense) :
    ∀ e ∈ es, e.id ≤ (es.map (fun x => x.id)).foldr max 0 := by
  induction es with
  | nil => intro e he; cases he
  | cons a t ih =>
    intro e he
    rw [List.map_cons, List.foldr_cons]
    rcases List.mem_cons.mp he with rfl | he2
    · exact le_max_left _ _
    · exact le_trans (ih e he2) (le_max_right _ _)

/-- The id SQLite assigns next is distinct from every stored id. -/
theorem nextId_not_mem (es : List Expense) (e : Expense) (he : e ∈ es) :
    e.id ≠ nextId es := by
  have h := id_le_foldr_max es e he
  unfold nextId
  omega

/-- Every single operation preserves distinctness of stored expense ids. -/
theorem expenseIds_nodup_applyOp (s : DBState) (op : Op)
    (h : (s.expenses.map (fun e => e.id)).Nodup) :
    ((applyOp s op).expenses.map (fun e => e.id)).Nodup := by
  cases op with
  | login v =>
    show (((login_user s v).expenses.map (fun e => e.id))).Nodup
    unfold login_user
    split
    · exact h
    · exact h
  | setBudget v c l => exact h
  | delete i => exact ((List.filter_sublist _).map _).nodup h
  | add v d c a desc =>
    show (((add_expense s v d c a desc).expenses.map (fun e => e.id))).Nodup
    unfold add_expense
    rw [List.map_append, List.nodup_append]
    refine ⟨h, by simp, ?_⟩
    intro x hx hx2
    simp only [List.map_cons, List.map_nil, List.mem_singleton] at hx2
    subst hx2
    rw [List.mem_map] at hx
    rcases hx with ⟨e, he, hid⟩
    exact nextId_not_mem s.expenses e he hid

/-- Distinctness of expense ids holds after any foldl of operations from a
state that has it. -/
theorem expenseIds_nodup_foldl : ∀ (ops : List Op) (s : DBState),
    (s.expenses.map (fun e => e.id)).Nodup →
      (((ops.foldl applyOp s).expenses.map (fun e => e.id))).Nodup := by
  intro ops
  induction ops with
  | nil => exact fun s h => h
  | cons op ops ih =>
    intro s h
    rw [List.foldl_cons]
    exact ih _ (expenseIds_nodup_applyOp s op h)

/-- C7, counterexample to monotonicity across the whole history: the second
add is assigned id 2; after that row is deleted, the fourth operation (an
add) is assigned id 2 again, because SQLite INTEGER PRIMARY KEY picks one
plus the largest id currently in the table. An id equal to an earlier
assignment is not greater than every id assigned before it. -/
theorem expense_id_reuse_counterexample :
    ((run [Op.add "guest" "2025-05-01" "Food" 5 "a",
           Op.add "guest" "2025-05-02" "Food" 6 "b"]).expenses.map (fun e => e.id))
        = [1, 2] ∧
    ((run [Op.add "guest" "2025-05-01" "Food" 5 "a",
           Op.add "guest" "2025-05-02" "Food" 6 "b",
           Op.delete 2,
           Op.add "guest" "2025-05-03" "Food" 7 "c"]).expenses.map (fun e => e.id))
        = [1, 2] := by
  refine ⟨by decide, by decide⟩

/-- C7 as amended: after any sequence of operations from the fresh database,
no two stored expenses share an id, and the id the store would assign next is
greater than every currently stored id — but ids are not monotone over the
full history, since deleting the largest row frees its id for reuse. -/
theorem expense_ids_unique_and_fresh (ops : List Op) :
    (((run ops).expenses.map (fun e => e.id))).Nodup ∧
    ∀ e ∈ (run ops).expenses, e.id < nextId (run ops).expenses := by
  constructor
  · exact expenseIds_nodup_foldl ops init_db (by simp [init_db])
  · intro e he
    have h := id_le_foldr_max (run ops).expenses e he
    unfold nextId
    omega

/-- Witness for the amended C7 after one add. -/
theorem expense_ids_witness :
    (((run [Op.add "guest" "2025-05-01" "Food" 5 "a"]).expenses.map
        (fun e => e.id))).Nodup ∧
    (⟨1, "guest", "2025-05-01", "Food", 5, "a"⟩ : Expense).id
      < nextId (run [Op.add "guest" "2025-05-01" "Food" 5 "a"]).expenses :=
  ⟨(expense_ids_unique_and_fresh [Op.add "guest" "2025-05-01" "Food" 5 "a"]).1,
   (expense_ids_unique_and_fresh [Op.add "guest" "2025-05-01" "Food" 5 "a"]).2
     _ (by decide)⟩

/-- C8: users are independent partitions keyed by username — writing for
user A (add_expense, set_budget or login_user) leaves what get_expenses and
get_budget return for a different user B unchanged, and get_expenses returns
only rows owned by the queried user. -/
theorem user_partition_independence (s : DBState) (A B : String) (hAB : A ≠ B)
    (d c cat desc : String) (a l : ℚ) :
    get_expenses (add_expense s A d c a desc) B = get_expenses s B ∧
    get_budget (add_expense s A d c a desc) B = get_budget s B ∧
    get_expenses (set_budget s A cat l) B = get_expenses s B ∧
    get_budget (set_budget s A cat l) B = get_budget s B ∧
    get_expenses (login_user s A) B = get_expenses s B ∧
    get_budget (login_user s A) B = get_budget s B ∧
    ∀ e ∈ get_expenses s A, e.username = A := by
  refine ⟨?_, rfl, rfl, ?_, ?_, ?_, ?_⟩
  · unfold get_expenses add_expense
    rw [List.filter_append]
    simp [hAB]
  · unfold get_budget set_budget
    rw [List.filter_append, filter_filter_of_imp]
    · simp [hAB]
    · intro b hb
      simp only [decide_eq_true_eq] at hb ⊢
      rintro ⟨h1, _⟩
      exact hAB (h1.symm.trans hb)
  · show get_expenses (login_user s A) B = get_expenses s B
    unfold login_user
    split
    · rfl
    · rfl
  · show get_budget (login_user s A) B = get_budget s B
    unfold login_user
    split
    · rfl
    · rfl
  · intro e he
    unfold get_expenses at he
    rw [List.mem_filter] at he
    have h2 := he.2
    simp only [decide_eq_true_eq] at h2
    exact h2

/-- Witness for C8: adding for guest does not change what alice sees. -/
theorem user_partition_witness :
    get_expenses (add_expense init_db "guest" "2025-05-01" "Food" 5 "a") "alice"
      = get_expenses init_db "alice" :=
  (user_partition_independence init_db "guest" "alice" (by decide)
    "2025-05-01" "Food" "Food" "a" 5 10).1

/-- C9: deleting an id that no stored expense has leaves the whole database
state equal to what it was; the DELETE matches no row and nothing raises. -/
theorem delete_absent_noop (s : DBState) (i : Nat)
    (h : ∀ e ∈ s.expenses, e.id ≠ i) :
    delete_expense s i = s := by
  unfold delete_expense
  have heq : s.expenses.filter (fun e => e.id ≠ i) = s.expenses := by
    rw [List.filter_eq_self]
    intro e he
    simpa using h e he
  rw [heq]

/-- Witness for C9: id 2 is absent after a single add, so the delete is the
identity on the state. -/
theorem delete_absent_noop_witness :
    delete_expense (run [Op.add "guest" "2025-05-01" "Food" 5 "a"]) 2
      = run [Op.add "guest" "2025-05-01" "Food" 5 "a"] :=
  delete_absent_noop (run [Op.add "guest" "2025-05-01" "Food" 5 "a"]) 2 (by decide)

/-- C10: delete_expense is keyed by id alone — it never reads the username
column, keeps exactly the stored expenses whose id differs from the argument
(whoever owns them), and leaves the users and budget tables unchanged. -/
theorem delete_by_id_frame (s : DBState) (i : Nat) :
    (delete_expense s i).users = s.users ∧
    (delete_expense s i).budget = s.budget ∧
    ∀ e, e ∈ (delete_expense s i).expenses ↔ (e ∈ s.expenses ∧ e.id ≠ i) := by
  refine ⟨rfl, rfl, ?_⟩
  intro e
  unfold delete_expense
  simp [List.mem_filter]

end FinanceApp
